import Mathlib

/-!
Verification of the schedule generator in
`FantasyScheduler/fantasy_scheduler_ortools.py`.

The script sets up a CP-SAT model over boolean variables
`matches[i][j][w]` (team `i` hosts team `j` in week `w`) together with
fourteen constraint families, solves it, extracts the schedule, and
prints a validation report.  Below, the league tables and every
constraint family are embedded as executable Lean definitions, and the
behavioural properties of satisfying assignments are proved from them.
-/

namespace FantasyScheduler

/-- Team and division setup (`teams_by_div` in the source, an ordered dict). -/
def teams_by_div : List (String × List String) := [
  ("North", ["Thor", "Blake", "Abe", "DTM"]),
  ("South", ["Samran", "Nasties", "Thomas", "Shooter"]),
  ("East",  ["Emelie", "AMO", "Lukose", "Sydney"]),
  ("West",  ["Nick", "Rej", "Saagar", "Dino"])]

/-- `div_of[t]`: the division a team belongs to. -/
def div_of (t : String) : String :=
  (((teams_by_div.find? (fun p => p.2.contains t)).map Prod.fst)).getD ""

/-- The `opposite` division mapping. -/
def opposite (d : String) : String :=
  if d = "North" then "South"
  else if d = "South" then "North"
  else if d = "East" then "West"
  else if d = "West" then "East"
  else ""

/-- `teams`: all teams, flattened in division order. -/
def teams : List String := (teams_by_div.map Prod.snd).flatten

/-- `T = len(teams)` -/
def T : Nat := teams.length

/-- `W = 14` weeks -/
def W : Nat := 14

/-- `G = 8` games per week -/
def G : Nat := 8

/-- `idx[t]`: index of a team in `teams`. -/
def idx (t : String) : Nat := teams.indexOf t

/-- `idx_to_team[i]`: team name of an index. -/
def idx_to_team (i : Nat) : String := teams.getD i ""

/-- The rivalry pairs (`rivals` in the source). -/
def rivals : List (String × String) := [
  ("DTM", "Sydney"),
  ("Thomas", "Emelie"),
  ("Thor", "Nick"),
  ("Blake", "Rej"),
  ("Samran", "Dino"),
  ("Abe", "Lukose"),
  ("Nasties", "Saagar"),
  ("Shooter", "AMO")]

/-- Rivalry pairs as index pairs. -/
def rivals_idx : List (Nat × Nat) := rivals.map (fun p => (idx p.1, idx p.2))

/-- An assignment of the model's decision variables:
`m i j w = true` means team `i` hosts team `j` in week `w`
(`matches[i][j][w]` in the source; the diagonal `i = j` carries no
variable there and is never mentioned by any constraint here). -/
def Matches : Type := Nat → Nat → Nat → Bool

/-- Both orientations of the pair `(a, b)` in week `w`, as a count. -/
def weekMeet (m : Matches) (a b w : Nat) : Nat :=
  (m a b w).toNat + (m b a w).toNat

/-- Total meetings of the pair `(a, b)` over the whole season. -/
def pairMeetings (m : Matches) (a b : Nat) : Nat :=
  ∑ w ∈ Finset.range W, weekMeet m a b w

/-- Games hosted by `a` against `b` over the season. -/
def hostedMeetings (m : Matches) (a b : Nat) : Nat :=
  ∑ w ∈ Finset.range W, (m a b w).toNat

/-- The sum in constraint 1: games (home or away) of team `i` in week `w`. -/
def gamesOf (m : Matches) (i w : Nat) : Nat :=
  ∑ j ∈ (Finset.range T).erase i, ((m i j w).toNat + (m j i w).toNat)

/-- The sum in constraint 2: all games of week `w`. -/
def weekGames (m : Matches) (w : Nat) : Nat :=
  ∑ i ∈ Finset.range T, ∑ j ∈ (Finset.range T).erase i, (m i j w).toNat

/-- Constraint 1: each team plays exactly once per week. -/
def constraint1 (m : Matches) : Prop :=
  ∀ w < W, ∀ i < T, gamesOf m i w = 1

/-- Constraint 2: each week has exactly `G` games. -/
def constraint2 (m : Matches) : Prop :=
  ∀ w < W, weekGames m w = G

/-- The ordered same-division pairs the source iterates over
(`for div_teams in teams_by_div.values(): for i: for j in range(i+1, ...)`). -/
def div_pairs : List (Nat × Nat) :=
  teams_by_div.flatMap (fun p =>
    let di := p.2.map idx
    (List.range di.length).flatMap (fun i =>
      ((List.range di.length).filter (fun j => i < j)).map
        (fun j => (di.getD i 0, di.getD j 0))))

/-- Constraint 3: division double round-robin, each division pair twice. -/
def constraint3 (m : Matches) : Prop :=
  ∀ p ∈ div_pairs, pairMeetings m p.1 p.2 = 2

/-- Teams of one division, as indices. -/
def div_indices (d : String) : List Nat :=
  ((teams_by_div.lookup d).getD []).map idx

/-- The opposite-division pairings iterated by constraints 4/4b. -/
def opposite_div_pairings : List (String × String) :=
  [("North", "South"), ("East", "West")]

/-- The ordered cross-pairs of spec-designated opposite divisions. -/
def opposite_pairs : List (Nat × Nat) :=
  opposite_div_pairings.flatMap (fun dd =>
    (div_indices dd.1).flatMap (fun a =>
      (div_indices dd.2).map (fun b => (a, b))))

/-- Constraint 4: each opposite-division pair meets exactly once. -/
def constraint4 (m : Matches) : Prop :=
  ∀ p ∈ opposite_pairs, pairMeetings m p.1 p.2 = 1

/-- Home games of `i` against the teams of a list, over the season
(the sums of constraint 4b). -/
def hostTotal (m : Matches) (i : Nat) (js : List Nat) : Nat :=
  (js.map (fun j => hostedMeetings m i j)).sum

/-- Constraint 4b: each team hosts exactly 2 games against its opposite division. -/
def constraint4b (m : Matches) : Prop :=
  ∀ dd ∈ opposite_div_pairings,
    (∀ a ∈ div_indices dd.1, hostTotal m a (div_indices dd.2) = 2) ∧
    (∀ b ∈ div_indices dd.2, hostTotal m b (div_indices dd.1) = 2)

/-- Season home games of team `i` (constraint 5 sum). -/
def homeCount (m : Matches) (i : Nat) : Nat :=
  ∑ w ∈ Finset.range W, ∑ j ∈ (Finset.range T).erase i, (m i j w).toNat

/-- Season away games of team `i` (constraint 5 sum). -/
def awayCount (m : Matches) (i : Nat) : Nat :=
  ∑ w ∈ Finset.range W, ∑ j ∈ (Finset.range T).erase i, (m j i w).toNat

/-- Constraint 5: 7 home and 7 away games per team. -/
def constraint5 (m : Matches) : Prop :=
  ∀ i < T, homeCount m i = 7 ∧ awayCount m i = 7

/-- Constraint 5b: each division pair plays exactly once at each location. -/
def constraint5b (m : Matches) : Prop :=
  ∀ p ∈ div_pairs, hostedMeetings m p.1 p.2 = 1 ∧ hostedMeetings m p.2 p.1 = 1

/-- `rivalry_week = 9` (week 10, 0-indexed). -/
def rivalry_week : Nat := 9

/-- Constraint 6: each rivalry pair plays exactly once in week 9. -/
def constraint6 (m : Matches) : Prop :=
  ∀ p ∈ rivals_idx, weekMeet m p.1 p.2 rivalry_week = 1

/-- `separation_weeks = 3` -/
def separation_weeks : Nat := 3

/-- Constraint 7: two legs of a division pair within `separation_weeks`
of each other may occur at most once
(`for w2 in range(w1+1, min(w1+separation_weeks, W))`). -/
def constraint7 (m : Matches) : Prop :=
  ∀ p ∈ div_pairs, ∀ w1 < W, ∀ w2, w1 + 1 ≤ w2 → w2 < min (w1 + separation_weeks) W →
    weekMeet m p.1 p.2 w1 + weekMeet m p.1 p.2 w2 ≤ 1

/-- `team_div_indices` of the source: indices of `i`'s division mates. -/
def team_div_indices (i : Nat) : List Nat :=
  (((teams_by_div.lookup (div_of (idx_to_team i))).getD []).filter
    (fun t => t ≠ idx_to_team i)).map idx

/-- Division games of team `i` in the 3-week window starting at `w1`
(the sum of constraint 8; the `in matches` guards of the source always
hold for distinct valid indices and weeks). -/
def divGames3 (m : Matches) (i w1 : Nat) : Nat :=
  ([w1, w1 + 1, w1 + 2].map (fun w =>
    ((team_div_indices i).map (fun d => weekMeet m i d w)).sum)).sum

/-- Constraint 8: at most 2 division games in any 3 consecutive weeks. -/
def constraint8 (m : Matches) : Prop :=
  ∀ i < T, ∀ w1, w1 < W - 2 → divGames3 m i w1 ≤ 2

/-- `last_8_weeks = list(range(6, 14))` -/
def last_8_weeks : List Nat := List.range' 6 8

/-- Division games of team `i` over the last 8 weeks (constraint 9 sum). -/
def divGamesLast8 (m : Matches) (i : Nat) : Nat :=
  (last_8_weeks.map (fun w =>
    ((team_div_indices i).map (fun d => weekMeet m i d w)).sum)).sum

/-- Constraint 9: at least 3 division games in the last 8 weeks. -/
def constraint9 (m : Matches) : Prop :=
  ∀ i < T, 3 ≤ divGamesLast8 m i

/-- `non_division_teams` of the source: indices not in `i`'s division. -/
def non_division_teams (i : Nat) : List Nat :=
  (List.range T).filter
    (fun j => j ≠ i ∧ div_of (idx_to_team j) ≠ div_of (idx_to_team i))

/-- Constraint 10: non-division opponents play at most once. -/
def constraint10 (m : Matches) : Prop :=
  ∀ i < T, ∀ j ∈ non_division_teams i, pairMeetings m i j ≤ 1

/-- `final_week = W - 1` -/
def final_week : Nat := W - 1

/-- Constraint 11: no non-divisional games in the final week. -/
def constraint11 (m : Matches) : Prop :=
  ∀ i < T, ∀ j ∈ non_division_teams i,
    m i j final_week = false ∧ m j i final_week = false

/-- Home games of `i` in the 4-week window starting at `w1` (constraint 12). -/
def homeGames4 (m : Matches) (i w1 : Nat) : Nat :=
  ([w1, w1 + 1, w1 + 2, w1 + 3].map (fun w =>
    ∑ j ∈ (Finset.range T).erase i, (m i j w).toNat)).sum

/-- Away games of `i` in the 4-week window starting at `w1` (constraint 12). -/
def awayGames4 (m : Matches) (i w1 : Nat) : Nat :=
  ([w1, w1 + 1, w1 + 2, w1 + 3].map (fun w =>
    ∑ j ∈ (Finset.range T).erase i, (m j i w).toNat)).sum

/-- Constraint 12: at most 3 home and at most 3 away games in any 4
consecutive weeks. -/
def constraint12 (m : Matches) : Prop :=
  ∀ i < T, ∀ w1, w1 < W - 3 → homeGames4 m i w1 ≤ 3 ∧ awayGames4 m i w1 ≤ 3

/-- A satisfying assignment of the whole constraint model: the
conjunction of every family the source adds via `model.Add`. -/
def satisfies (m : Matches) : Prop :=
  constraint1 m ∧ constraint2 m ∧ constraint3 m ∧ constraint4 m ∧
  constraint4b m ∧ constraint5 m ∧ constraint5b m ∧ constraint6 m ∧
  constraint7 m ∧ constraint8 m ∧ constraint9 m ∧ constraint10 m ∧
  constraint11 m ∧ constraint12 m

instance satisfiesDecidable (m : Matches) : Decidable (satisfies m) := by
  unfold satisfies constraint1 constraint2 constraint3 constraint4 constraint4b
    constraint5 constraint5b constraint6 constraint7 constraint8 constraint9
    constraint10 constraint11 constraint12
  infer_instance

/-- A concrete solved schedule, given as the list of (home, away) index
pairs of each week; it satisfies every constraint family of the model. -/
def schedSol : List (List (Nat × Nat)) := [
  [(1, 0), (3, 2), (4, 5), (6, 7), (9, 8), (10, 11), (13, 12), (15, 14)],
  [(3, 15), (5, 8), (6, 9), (7, 12), (10, 1), (11, 2), (13, 0), (14, 4)],
  [(0, 4), (1, 5), (2, 6), (7, 3), (8, 12), (9, 13), (10, 14), (11, 15)],
  [(2, 0), (3, 1), (4, 6), (5, 7), (8, 10), (11, 9), (12, 14), (13, 15)],
  [(0, 10), (1, 11), (7, 13), (8, 4), (9, 5), (12, 6), (14, 3), (15, 2)],
  [(3, 4), (5, 0), (6, 1), (7, 2), (9, 14), (11, 12), (13, 8), (15, 10)],
  [(2, 1), (3, 0), (6, 5), (7, 4), (8, 11), (10, 9), (12, 15), (14, 13)],
  [(1, 7), (4, 2), (5, 3), (6, 0), (12, 10), (13, 11), (14, 8), (15, 9)],
  [(0, 1), (2, 3), (5, 4), (7, 6), (8, 9), (11, 10), (12, 13), (14, 15)],
  [(0, 12), (1, 13), (2, 10), (3, 11), (4, 15), (5, 14), (6, 8), (9, 7)],
  [(2, 14), (4, 9), (8, 3), (10, 7), (11, 0), (12, 5), (13, 6), (15, 1)],
  [(0, 2), (1, 3), (6, 4), (7, 5), (9, 11), (10, 8), (14, 12), (15, 13)],
  [(0, 7), (2, 5), (3, 6), (4, 1), (8, 15), (10, 13), (12, 9), (14, 11)],
  [(0, 3), (1, 2), (4, 7), (5, 6), (9, 10), (11, 8), (13, 14), (15, 12)]]

/-- Decision-variable assignment read off `schedSol`. -/
def mSol : Matches := fun i j w => (schedSol.getD w []).contains (i, j)

/-- Same-division opponents of `i`, as a finset. -/
def divOppF (i : Nat) : Finset Nat :=
  ((Finset.range T).erase i).filter
    (fun j => div_of (idx_to_team i) = div_of (idx_to_team j))

/-- Non-division opponents of `i`, as a finset. -/
def nonDivF (i : Nat) : Finset Nat :=
  ((Finset.range T).erase i).filter
    (fun j => ¬ div_of (idx_to_team i) = div_of (idx_to_team j))

/-- Opposite-division opponents of `i`, as a finset. -/
def oppF (i : Nat) : Finset Nat :=
  (nonDivF i).filter
    (fun j => opposite (div_of (idx_to_team i)) = div_of (idx_to_team j))

/-- Cross-division (neither same nor opposite division) opponents of `i`. -/
def crossF (i : Nat) : Finset Nat :=
  (nonDivF i).filter
    (fun j => ¬ opposite (div_of (idx_to_team i)) = div_of (idx_to_team j))

/-- The rivalry partner of a team index. -/
def rivalOf (i : Nat) : Nat :=
  match rivals_idx.find? (fun p => p.1 == i || p.2 == i) with
  | some p => if p.1 == i then p.2 else p.1
  | none => i

/-! ### Solution extraction and the validation summary block
(lines 287–337 and 393–625 of the source) -/

/-- One extracted game: a row of `games_by_week` (week stored 1-indexed). -/
structure Game where
  week : Nat
  away : String
  home : String
  type : String
deriving DecidableEq

/-- The extractor's game classification (`game_type`), decided from the
division tables, with the rivalry label only applied in week index 9. -/
def gameType (home away : String) (w : Nat) : String :=
  if div_of home = div_of away then "Division"
  else if div_of away = opposite (div_of home) then "Opposite"
  else if w == 9 && rivals.any (fun r => ((home, away) == r) || ((away, home) == r))
    then "Rivalry"
  else "Cross-Division"

/-- The extractor: the week-ordered `games_by_week` list read off a
solved assignment. -/
def extractGames (m : Matches) : List Game :=
  (List.range W).flatMap (fun w =>
    (List.range T).flatMap (fun i =>
      ((List.range T).filter (fun j => j ≠ i ∧ m i j w = true)).map
        (fun j => { week := w + 1, away := idx_to_team j, home := idx_to_team i,
                    type := gameType (idx_to_team i) (idx_to_team j) w })))

/-- A team's games in week order (its `team_schedules` entry). -/
def teamGames (gs : List Game) (t : String) : List Game :=
  gs.filter (fun g => g.home = t ∨ g.away = t)

/-- The opponent of `t` in one of its games. -/
def opponentOf (g : Game) (t : String) : String :=
  if g.home = t then g.away else g.home

/-- Check: every team has 7 home and 7 away games. -/
def checkHomeAway (gs : List Game) : Bool :=
  teams.all (fun t =>
    ((gs.filter (fun g => g.home = t)).length == 7) &&
    ((gs.filter (fun g => g.away = t)).length == 7))

/-- Check: every team has 3 home and 3 away divisional games. -/
def checkDivBalance (gs : List Game) : Bool :=
  teams.all (fun t =>
    ((gs.filter (fun g => g.home = t ∧ g.type = "Division")).length == 3) &&
    ((gs.filter (fun g => g.away = t ∧ g.type = "Division")).length == 3))

/-- Check: all rivalry games are found among the week-10 games. -/
def checkRivalryWeek (gs : List Game) : Bool :=
  ((gs.filter (fun g => g.week = 10)).filter (fun g =>
    rivals.any (fun r => ((g.home, g.away) == r) || ((g.away, g.home) == r)))).length
    == rivals.length

/-- The division pairs by name, in the source's iteration order. -/
def div_pair_names : List (String × String) :=
  teams_by_div.flatMap (fun p =>
    (List.range p.2.length).flatMap (fun i =>
      ((List.range p.2.length).filter (fun j => i < j)).map
        (fun j => (p.2.getD i "", p.2.getD j ""))))

/-- Check: each division pair has a game hosted by each side. -/
def checkDivMatchups (gs : List Game) : Bool :=
  div_pair_names.all (fun p =>
    (gs.any (fun g => g.home = p.1 ∧ g.away = p.2)) &&
    (gs.any (fun g => g.home = p.2 ∧ g.away = p.1)))

/-- Check: division pairs meeting twice have their weeks at least 3 apart. -/
def checkSeparation (gs : List Game) : Bool :=
  div_pair_names.all (fun p =>
    match (gs.filter (fun g =>
        (g.home = p.1 ∧ g.away = p.2) ∨ (g.home = p.2 ∧ g.away = p.1))).map
        (fun g => g.week) with
    | [w1, w2] => decide (3 ≤ max w1 w2 - min w1 w2)
    | _ => true)

/-- Check: at most 2 divisional games in every 3-week window. -/
def checkWindow3 (gs : List Game) : Bool :=
  teams.all (fun t =>
    (List.range' 1 12).all (fun w1 =>
      decide (((teamGames gs t).filter (fun g =>
        g.type = "Division" ∧ (g.week = w1 ∨ g.week = w1 + 1 ∨ g.week = w1 + 2))).length
        ≤ 2)))

/-- Check: at least 3 divisional games in weeks 7 to 14. -/
def checkLast8 (gs : List Game) : Bool :=
  teams.all (fun t =>
    decide (3 ≤ ((teamGames gs t).filter
      (fun g => g.type = "Division" ∧ 7 ≤ g.week)).length))

/-- Check: all week-14 games are divisional. -/
def checkFinalWeek (gs : List Game) : Bool :=
  (gs.filter (fun g => g.week = 14)).all (fun g => g.type == "Division")

/-- Helper walking the venue list, tracking current and best streaks. -/
def maxStreakGo (cur : String) (len best : Nat) : List String → Nat
  | [] => max best len
  | v :: rest =>
      if v = cur then maxStreakGo cur (len + 1) (max best (len + 1)) rest
      else maxStreakGo v 1 (max best len) rest

/-- Longest run of equal consecutive entries. -/
def maxStreak : List String → Nat
  | [] => 0
  | v :: rest => maxStreakGo v 1 1 rest

/-- Check: no team has more than 3 consecutive home or away games. -/
def checkStreaks (gs : List Game) : Bool :=
  teams.all (fun t =>
    decide (maxStreak ((teamGames gs t).map
      (fun g => if g.home = t then "Home" else "Away")) ≤ 3))

/-- Check: non-division opponents are played at most once. -/
def checkNonDivOnce (gs : List Game) : Bool :=
  teams.all (fun t =>
    teams.all (fun o =>
      (div_of o == div_of t) ||
      decide (((teamGames gs t).filter (fun g => opponentOf g t = o)).length ≤ 1)))

/-- Check: each team's games split 6 divisional, 4 opposite, 4 cross
(rivalry games counted with the cross games). -/
def checkBreakdown (gs : List Game) : Bool :=
  teams.all (fun t =>
    (((teamGames gs t).filter (fun g => g.type = "Division")).length == 6) &&
    (((teamGames gs t).filter (fun g => g.type = "Opposite")).length == 4) &&
    (((teamGames gs t).filter
      (fun g => g.type = "Cross-Division" ∨ g.type = "Rivalry")).length == 4))

/-- The validation summary block: the aggregated pass flag of every
constraint family it prints, in print order.  The block always evaluates
every family (it never stops at a failure). -/
def validationChecks (gs : List Game) : List (String × Bool) := [
  ("total_home_away_balance", checkHomeAway gs),
  ("divisional_home_away_balance", checkDivBalance gs),
  ("rivalry_week", checkRivalryWeek gs),
  ("divisional_matchup_balance", checkDivMatchups gs),
  ("division_game_separation", checkSeparation gs),
  ("consecutive_division_games", checkWindow3 gs),
  ("division_games_last_8_weeks", checkLast8 gs),
  ("final_week_divisional", checkFinalWeek gs),
  ("consecutive_home_away", checkStreaks gs),
  ("non_division_once", checkNonDivOnce gs),
  ("opponent_breakdown", checkBreakdown gs)]

/-- Outcome of the validation block.  The source prints the per-family
report and always falls through: it defines no exception type and
contains no raise statement, so the outcome is a normal return carrying
the report, never an error. -/
def validationOutcome (gs : List Game) :
    Except (List String) (List (String × Bool)) :=
  Except.ok (validationChecks gs)

/-- The all-false assignment (no games at all); its extraction is the
empty schedule, on which several validation families fail. -/
def mNone : Matches := fun _ _ _ => false

/-! ### Domain Model construction (modelled from the spec) -/

/-- Modelled from the spec: the `ConfigurationError` of §4.1/§7, naming
the violated invariant.  The source has no such type: its league tables
are module-level values with no validation. -/
inductive ConfigurationError where
  | unevenDivisionSize : String → ConfigurationError
  | rivalrySameDivision : String → String → ConfigurationError
  | inconsistentCounts : ConfigurationError
  | badOppositePairing : String → ConfigurationError
deriving DecidableEq

/-- Modelled from the spec: the raw league input handed to Domain Model
construction (§6 inputs). -/
structure LeagueInput where
  teamsByDiv : List (String × List String)
  oppositeOf : List (String × String)
  rivalries : List (String × String)
  divSize : Nat
  gamesPerWeek : Nat
deriving DecidableEq

/-- Division of a team under a given input. -/
def inputDivOf (inp : LeagueInput) (t : String) : String :=
  (((inp.teamsByDiv.find? (fun p => p.2.contains t)).map Prod.fst)).getD ""

/-- Modelled from the spec: a validated Domain Model.  No partial
construction is observable: a value exists only behind `Except.ok`. -/
structure DomainModel where
  input : LeagueInput
deriving DecidableEq

/-- Modelled from the spec: Domain Model construction (§4.1), which is
absent from the source.  It validates, in the spec's order, that
(a) every division has the configured team count, (b) every rivalry
pair's teams are in different divisions, (c) the team count is even and
games-per-week is half of it, and (d) the opposite mapping is a perfect
pairing, failing with a `ConfigurationError` naming the violated
invariant. -/
def mkDomainModel (inp : LeagueInput) : Except ConfigurationError DomainModel :=
  match inp.teamsByDiv.find? (fun p => p.2.length != inp.divSize) with
  | some p => Except.error (ConfigurationError.unevenDivisionSize p.1)
  | none =>
    match inp.rivalries.find? (fun r => inputDivOf inp r.1 == inputDivOf inp r.2) with
    | some r => Except.error (ConfigurationError.rivalrySameDivision r.1 r.2)
    | none =>
      let teamCount := (inp.teamsByDiv.map (fun p => p.2.length)).sum
      if teamCount % 2 != 0 || inp.gamesPerWeek * 2 != teamCount then
        Except.error ConfigurationError.inconsistentCounts
      else
        match inp.oppositeOf.find? (fun p =>
            p.1 == p.2 || ((inp.oppositeOf.lookup p.2).getD "") != p.1) with
        | some p => Except.error (ConfigurationError.badOppositePairing p.1)
        | none => Except.ok { input := inp }

/-- The source's league tables packaged as a `LeagueInput`, but with a
same-division rivalry pair (Thor and Blake are both North). -/
def badInput : LeagueInput :=
  { teamsByDiv := teams_by_div,
    oppositeOf := [("North", "South"), ("South", "North"),
                   ("East", "West"), ("West", "East")],
    rivalries := [("Thor", "Blake")],
    divSize := 4,
    gamesPerWeek := 8 }

set_option maxRecDepth 100000 in
set_option maxHeartbeats 4000000 in
/-- The concrete schedule satisfies the entire constraint model. -/
theorem mSol_satisfies : satisfies mSol := by decide

/-! ### League-table facts, all established by evaluation -/

theorem div_pairs_complete : ∀ a ∈ List.range T, ∀ b ∈ List.range T,
    (a = b ∨ ¬ div_of (idx_to_team a) = div_of (idx_to_team b) ∨
      (a, b) ∈ div_pairs ∨ (b, a) ∈ div_pairs) := by decide

theorem opposite_pairs_complete : ∀ a ∈ List.range T, ∀ b ∈ List.range T,
    (¬ opposite (div_of (idx_to_team a)) = div_of (idx_to_team b) ∨
      (a, b) ∈ opposite_pairs ∨ (b, a) ∈ opposite_pairs) := by decide

theorem nondiv_mem : ∀ a ∈ List.range T, ∀ b ∈ List.range T,
    (b = a ∨ div_of (idx_to_team b) = div_of (idx_to_team a) ∨
      b ∈ non_division_teams a) := by decide

theorem rivals_idx_facts : ∀ p ∈ rivals_idx,
    p.1 < T ∧ p.2 < T ∧ p.2 ∈ non_division_teams p.1 := by decide

theorem breakdown_cards : ∀ i, i < T →
    (divOppF i).card = 3 ∧ (oppF i).card = 4 ∧ (crossF i).card = 8 := by decide

theorem rivalOf_facts : ∀ i, i < T → rivalOf i ∈ crossF i ∧
    ((i, rivalOf i) ∈ rivals_idx ∨ (rivalOf i, i) ∈ rivals_idx) := by decide

/-! ### Generic counting lemmas -/

theorem weekMeet_comm (m : Matches) (a b w : Nat) :
    weekMeet m a b w = weekMeet m b a w := by
  unfold weekMeet; omega

theorem pairMeetings_comm (m : Matches) (a b : Nat) :
    pairMeetings m a b = pairMeetings m b a := by
  unfold pairMeetings
  exact Finset.sum_congr rfl (fun w _ => weekMeet_comm m a b w)

theorem weekMeet_le_pairMeetings (m : Matches) (a b w : Nat) (hw : w < W) :
    weekMeet m a b w ≤ pairMeetings m a b := by
  unfold pairMeetings
  exact Finset.single_le_sum (fun x _ => Nat.zero_le _) (Finset.mem_range.mpr hw)

theorem pairMeetings_single (m : Matches) (a b : Nat)
    (h9 : weekMeet m a b rivalry_week = 1) (hle : pairMeetings m a b ≤ 1) :
    pairMeetings m a b = 1 ∧ ∀ w < W, w ≠ rivalry_week → weekMeet m a b w = 0 := by
  have hmem : rivalry_week ∈ Finset.range W := by decide
  have hone : pairMeetings m a b = 1 :=
    Nat.le_antisymm hle (h9 ▸ weekMeet_le_pairMeetings m a b rivalry_week (by decide))
  refine ⟨hone, fun w hw hne => ?_⟩
  have hsplit := Finset.add_sum_erase (Finset.range W) (weekMeet m a b) hmem
  unfold pairMeetings at hone
  have hrest : ∑ x ∈ (Finset.range W).erase rivalry_week, weekMeet m a b x = 0 := by
    omega
  have := (Finset.sum_eq_zero_iff).mp hrest w
    (Finset.mem_erase.mpr ⟨hne, Finset.mem_range.mpr hw⟩)
  exact this

/-! ### Consequences of `satisfies`, shared by several results -/

theorem sat_div_pair {m : Matches} (h : satisfies m) {a b : Nat}
    (ha : a < T) (hb : b < T) (hne : a ≠ b)
    (hdiv : div_of (idx_to_team a) = div_of (idx_to_team b)) :
    pairMeetings m a b = 2 ∧ hostedMeetings m a b = 1 ∧ hostedMeetings m b a = 1 := by
  obtain ⟨-, -, c3, -, -, -, c5b, -⟩ := h
  rcases div_pairs_complete a (List.mem_range.mpr ha) b (List.mem_range.mpr hb) with heq | hnd | hp | hp
  · exact absurd heq hne
  · exact absurd hdiv hnd
  · exact ⟨c3 (a, b) hp, (c5b (a, b) hp).1, (c5b (a, b) hp).2⟩
  · exact ⟨(pairMeetings_comm m a b).trans (c3 (b, a) hp),
      (c5b (b, a) hp).2, (c5b (b, a) hp).1⟩

theorem sat_opp {m : Matches} (h : satisfies m) {a b : Nat}
    (ha : a < T) (hb : b < T)
    (hopp : opposite (div_of (idx_to_team a)) = div_of (idx_to_team b)) :
    pairMeetings m a b = 1 := by
  obtain ⟨-, -, -, c4, -⟩ := h
  rcases opposite_pairs_complete a (List.mem_range.mpr ha) b (List.mem_range.mpr hb) with hno | hp | hp
  · exact absurd hopp hno
  · exact c4 (a, b) hp
  · exact (pairMeetings_comm m a b).trans (c4 (b, a) hp)

theorem sat_nondiv {m : Matches} (h : satisfies m) {a b : Nat}
    (ha : a < T) (hb : b < T) (hne : b ≠ a)
    (hdiv : div_of (idx_to_team b) ≠ div_of (idx_to_team a)) :
    pairMeetings m a b ≤ 1 := by
  obtain ⟨-, -, -, -, -, -, -, -, -, -, -, c10, -⟩ := h
  rcases nondiv_mem a (List.mem_range.mpr ha) b (List.mem_range.mpr hb) with heq | hsame | hmem
  · exact absurd heq hne
  · exact absurd hsame hdiv
  · exact c10 a ha b hmem

theorem sat_rival {m : Matches} (h : satisfies m) {p : Nat × Nat}
    (hp : p ∈ rivals_idx) :
    pairMeetings m p.1 p.2 = 1 ∧ weekMeet m p.1 p.2 rivalry_week = 1 ∧
    ∀ w < W, w ≠ rivalry_week → weekMeet m p.1 p.2 w = 0 := by
  obtain ⟨h1, h2, hnd⟩ := rivals_idx_facts p hp
  have c6 : weekMeet m p.1 p.2 rivalry_week = 1 := by
    obtain ⟨-, -, -, -, -, -, -, c6, -⟩ := h
    exact c6 p hp
  have c10 : pairMeetings m p.1 p.2 ≤ 1 := by
    obtain ⟨-, -, -, -, -, -, -, -, -, -, -, c10, -⟩ := h
    exact c10 p.1 h1 p.2 hnd
  obtain ⟨hone, hzero⟩ := pairMeetings_single m p.1 p.2 c6 c10
  exact ⟨hone, c6, hzero⟩

/-! ### The claims -/

/-- C3: for every satisfying assignment, each of the 8 rivalry pairs
meets exactly once over the season, that meeting is in the designated
rivalry week (index 9), and the pair never meets in any other week. -/
theorem rivalry_pairs_pinned (m : Matches) (h : satisfies m) :
    rivals_idx.length = 8 ∧
    ∀ p ∈ rivals_idx, pairMeetings m p.1 p.2 = 1 ∧
      weekMeet m p.1 p.2 rivalry_week = 1 ∧
      ∀ w < W, w ≠ rivalry_week → weekMeet m p.1 p.2 w = 0 :=
  ⟨rfl, fun _ hp => sat_rival h hp⟩

/-- Witness for C3 at the concrete solved schedule and the DTM–Sydney pair. -/
theorem rivalry_pairs_pinned_witness :
    pairMeetings mSol 3 11 = 1 ∧ weekMeet mSol 3 11 rivalry_week = 1 :=
  ⟨((rivalry_pairs_pinned mSol mSol_satisfies).2 (3, 11) (by decide)).1,
   ((rivalry_pairs_pinned mSol mSol_satisfies).2 (3, 11) (by decide)).2.1⟩

/-- C4: for every satisfying assignment and same-division pair, two
weeks within the separation distance hold at most one of the pair's
legs, hence the two meeting weeks differ by at least 3. -/
theorem division_pair_separation (m : Matches) (h : satisfies m)
    (a b : Nat) (ha : a < T) (hb : b < T) (hne : a ≠ b)
    (hdiv : div_of (idx_to_team a) = div_of (idx_to_team b)) :
    (∀ w1 w2, w1 < w2 → w2 < min (w1 + separation_weeks) W →
      weekMeet m a b w1 + weekMeet m a b w2 ≤ 1) ∧
    (∀ w1 w2, w1 < w2 → w2 < W → 1 ≤ weekMeet m a b w1 → 1 ≤ weekMeet m a b w2 →
      w1 + separation_weeks ≤ w2) := by
  obtain ⟨-, -, -, -, -, -, -, -, c7, -⟩ := h
  have partA : ∀ w1 w2, w1 < w2 → w2 < min (w1 + separation_weeks) W →
      weekMeet m a b w1 + weekMeet m a b w2 ≤ 1 := by
    intro w1 w2 h12 hmin
    have hw1 : w1 < W := by omega
    rcases div_pairs_complete a (List.mem_range.mpr ha) b (List.mem_range.mpr hb)
      with heq | hnd | hp | hp
    · exact absurd heq hne
    · exact absurd hdiv hnd
    · exact c7 (a, b) hp w1 hw1 w2 h12 hmin
    · have := c7 (b, a) hp w1 hw1 w2 h12 hmin
      rwa [weekMeet_comm m b a w1, weekMeet_comm m b a w2] at this
  refine ⟨partA, fun w1 w2 h12 hW hm1 hm2 => ?_⟩
  by_contra hlt
  have := partA w1 w2 h12 (by omega)
  omega

/-- Witness for C4 at the concrete solved schedule: Thor and Blake
(both North) meet in weeks 0 and 8, at least 3 apart. -/
theorem division_pair_separation_witness :
    1 ≤ weekMeet mSol 0 1 0 ∧ 1 ≤ weekMeet mSol 0 1 8 ∧
    0 + separation_weeks ≤ 8 :=
  ⟨by decide, by decide,
    (division_pair_separation mSol mSol_satisfies 0 1 (by decide) (by decide)
      (by decide) (by decide)).2 0 8 (by decide) (by decide) (by decide) (by decide)⟩

/-- C5: for every satisfying assignment, every team plays exactly one
game in each of the 14 weeks (hence 14 games, no byes), every week has
exactly 8 games, and every team has exactly 7 home and 7 away games. -/
theorem schedule_shape (m : Matches) (h : satisfies m) :
    (∀ i < T, ∀ w < W, gamesOf m i w = 1) ∧
    (∀ i < T, ∑ w ∈ Finset.range W, gamesOf m i w = W) ∧
    (∀ w < W, weekGames m w = G) ∧
    (∀ i < T, homeCount m i = 7 ∧ awayCount m i = 7) := by
  obtain ⟨c1, c2, -, -, -, c5, -⟩ := h
  refine ⟨fun i hi w hw => c1 w hw i hi, fun i hi => ?_, c2, c5⟩
  rw [Finset.sum_congr rfl (fun w hw => c1 w (Finset.mem_range.mp hw) i hi)]
  simp

/-- Witness for C5 at the concrete solved schedule and team 0, week 0. -/
theorem schedule_shape_witness :
    gamesOf mSol 0 0 = 1 ∧ weekGames mSol 0 = G ∧ homeCount mSol 0 = 7 :=
  ⟨(schedule_shape mSol mSol_satisfies).1 0 (by decide) 0 (by decide),
   (schedule_shape mSol mSol_satisfies).2.2.1 0 (by decide),
   ((schedule_shape mSol mSol_satisfies).2.2.2 0 (by decide)).1⟩

/-- C6: for every satisfying assignment and every same-division pair,
the pair meets exactly twice and each side hosts exactly one meeting. -/
theorem division_double_round_robin (m : Matches) (h : satisfies m)
    (a b : Nat) (ha : a < T) (hb : b < T) (hne : a ≠ b)
    (hdiv : div_of (idx_to_team a) = div_of (idx_to_team b)) :
    pairMeetings m a b = 2 ∧ hostedMeetings m a b = 1 ∧ hostedMeetings m b a = 1 :=
  sat_div_pair h ha hb hne hdiv

/-- Witness for C6 at the concrete solved schedule and the pair Thor–Blake. -/
theorem division_double_round_robin_witness :
    pairMeetings mSol 0 1 = 2 ∧ hostedMeetings mSol 0 1 = 1 :=
  ⟨(division_double_round_robin mSol mSol_satisfies 0 1 (by decide) (by decide)
      (by decide) (by decide)).1,
   (division_double_round_robin mSol mSol_satisfies 0 1 (by decide) (by decide)
      (by decide) (by decide)).2.1⟩

/-- C7: for every satisfying assignment, every opposite-division pair
meets exactly once, and every other pair of teams from different
divisions meets at most once. -/
theorem cross_division_meeting_counts (m : Matches) (h : satisfies m)
    (a b : Nat) (ha : a < T) (hb : b < T) :
    (opposite (div_of (idx_to_team a)) = div_of (idx_to_team b) →
      pairMeetings m a b = 1) ∧
    (a ≠ b → div_of (idx_to_team a) ≠ div_of (idx_to_team b) →
      pairMeetings m a b ≤ 1) :=
  ⟨fun hopp => sat_opp h ha hb hopp,
   fun hne hdiv => sat_nondiv h ha hb (Ne.symm hne) (fun e => hdiv e.symm)⟩

/-- Witness for C7 at the concrete solved schedule: Thor (North) and
Samran (South) are an opposite-division pair meeting exactly once. -/
theorem cross_division_meeting_counts_witness :
    opposite (div_of (idx_to_team 0)) = div_of (idx_to_team 4) ∧
    pairMeetings mSol 0 4 = 1 :=
  ⟨by decide,
   (cross_division_meeting_counts mSol mSol_satisfies 0 4 (by decide)
      (by decide)).1 (by decide)⟩

/-- C8: for every satisfying assignment, a game scheduled in the final
week (index 13) is always between two teams of the same division. -/
theorem final_week_divisional (m : Matches) (h : satisfies m)
    (i j : Nat) (hi : i < T) (hj : j < T) (hne : i ≠ j)
    (hm : m i j final_week = true) :
    div_of (idx_to_team i) = div_of (idx_to_team j) := by
  obtain ⟨-, -, -, -, -, -, -, -, -, -, -, -, c11, -⟩ := h
  by_contra hdiv
  rcases nondiv_mem i (List.mem_range.mpr hi) j (List.mem_range.mpr hj)
    with heq | hsame | hmem
  · exact hne heq.symm
  · exact hdiv hsame.symm
  · have := (c11 i hi j hmem).1
    rw [hm] at this
    exact Bool.noConfusion this

/-- Witness for C8 at the concrete solved schedule: the week-13 game
where Thor hosts DTM is divisional. -/
theorem final_week_divisional_witness :
    mSol 0 3 final_week = true ∧ div_of (idx_to_team 0) = div_of (idx_to_team 3) :=
  ⟨by decide,
   final_week_divisional mSol mSol_satisfies 0 3 (by decide) (by decide)
     (by decide) (by decide)⟩

/-- C9: for every satisfying assignment and team, every sliding 3-week
window holds at most 2 divisional games, and the trailing 8 weeks hold
at least 3 divisional games. -/
theorem division_density (m : Matches) (h : satisfies m) (i : Nat) (hi : i < T) :
    (∀ w1, w1 + 2 < W → divGames3 m i w1 ≤ 2) ∧ 3 ≤ divGamesLast8 m i := by
  obtain ⟨-, -, -, -, -, -, -, -, -, c8, c9, -⟩ := h
  exact ⟨fun w1 hw => c8 i hi w1 (by omega), c9 i hi⟩

/-- Witness for C9 at the concrete solved schedule and team 0. -/
theorem division_density_witness :
    divGames3 mSol 0 0 ≤ 2 ∧ 3 ≤ divGamesLast8 mSol 0 :=
  ⟨(division_density mSol mSol_satisfies 0 (by decide)).1 0 (by decide),
   (division_density mSol mSol_satisfies 0 (by decide)).2⟩

/-- C10: for every satisfying assignment and team, its 14 games split
into exactly 6 against division mates, exactly 4 against its opposite
division, and exactly 4 against 4 distinct other cross-division
opponents, one of which is its rivalry partner. -/
theorem opponent_breakdown (m : Matches) (h : satisfies m) (i : Nat) (hi : i < T) :
    (∑ j ∈ divOppF i, pairMeetings m i j) = 6 ∧
    (∑ j ∈ oppF i, pairMeetings m i j) = 4 ∧
    (∑ j ∈ crossF i, pairMeetings m i j) = 4 ∧
    ((crossF i).filter (fun j => pairMeetings m i j = 1)).card = 4 ∧
    rivalOf i ∈ crossF i ∧ pairMeetings m i (rivalOf i) = 1 := by
  have c1 : constraint1 m := h.1
  -- the divisional part sums to 2 on each of the 3 division mates
  have hdivterm : ∀ j ∈ divOppF i, pairMeetings m i j = 2 := by
    intro j hj
    have hj' := Finset.mem_filter.mp hj
    have hje := Finset.mem_erase.mp hj'.1
    exact (sat_div_pair h hi (Finset.mem_range.mp hje.2) (Ne.symm hje.1) hj'.2).1
  have hdivsum : (∑ j ∈ divOppF i, pairMeetings m i j) = 6 := by
    rw [Finset.sum_congr rfl hdivterm, Finset.sum_const, (breakdown_cards i hi).1]
    rfl
  -- the opposite part sums to 1 on each of the 4 opposite teams
  have hoppterm : ∀ j ∈ oppF i, pairMeetings m i j = 1 := by
    intro j hj
    have hj' := Finset.mem_filter.mp hj
    have hje := Finset.mem_erase.mp (Finset.mem_filter.mp hj'.1).1
    exact sat_opp h hi (Finset.mem_range.mp hje.2) hj'.2
  have hoppsum : (∑ j ∈ oppF i, pairMeetings m i j) = 4 := by
    rw [Finset.sum_congr rfl hoppterm, Finset.sum_const, (breakdown_cards i hi).2.1]
    rfl
  -- the season total is 14, by swapping the double sum
  have htot : (∑ j ∈ (Finset.range T).erase i, pairMeetings m i j) = 14 := by
    have hswap : (∑ j ∈ (Finset.range T).erase i, pairMeetings m i j)
        = ∑ w ∈ Finset.range W, gamesOf m i w := by
      unfold pairMeetings gamesOf weekMeet
      exact Finset.sum_comm
    rw [hswap, Finset.sum_congr rfl (fun w hw => c1 w (Finset.mem_range.mp hw) i hi)]
    simp [W]
  have hsplit1 : (∑ j ∈ divOppF i, pairMeetings m i j) +
      (∑ j ∈ nonDivF i, pairMeetings m i j)
      = ∑ j ∈ (Finset.range T).erase i, pairMeetings m i j :=
    Finset.sum_filter_add_sum_filter_not _ _ _
  have hsplit2 : (∑ j ∈ oppF i, pairMeetings m i j) +
      (∑ j ∈ crossF i, pairMeetings m i j)
      = ∑ j ∈ nonDivF i, pairMeetings m i j :=
    Finset.sum_filter_add_sum_filter_not _ _ _
  have hcross : (∑ j ∈ crossF i, pairMeetings m i j) = 4 := by omega
  -- each cross opponent is met at most once, so the support has size 4
  have hle : ∀ j ∈ crossF i, pairMeetings m i j ≤ 1 := by
    intro j hj
    have hj' := Finset.mem_filter.mp (Finset.mem_filter.mp hj).1
    have hje := Finset.mem_erase.mp hj'.1
    exact sat_nondiv h hi (Finset.mem_range.mp hje.2) hje.1 (fun e => hj'.2 e.symm)
  have hsupp : ((crossF i).filter (fun j => pairMeetings m i j = 1)).card = 4 := by
    have hs := Finset.sum_filter_add_sum_filter_not (crossF i)
      (fun j => pairMeetings m i j = 1) (fun j => pairMeetings m i j)
    have hz : (∑ j ∈ (crossF i).filter (fun j => ¬ pairMeetings m i j = 1),
        pairMeetings m i j) = 0 := by
      refine Finset.sum_eq_zero (fun j hj => ?_)
      have hj' := Finset.mem_filter.mp hj
      have := hle j hj'.1
      omega
    have hone : (∑ j ∈ (crossF i).filter (fun j => pairMeetings m i j = 1),
        pairMeetings m i j)
        = ((crossF i).filter (fun j => pairMeetings m i j = 1)).card := by
      rw [Finset.sum_congr rfl (fun j hj => (Finset.mem_filter.mp hj).2),
        Finset.sum_const, smul_eq_mul, mul_one]
    omega
  -- the rivalry partner is one of the cross opponents and is met once
  have hrmem : rivalOf i ∈ crossF i := (rivalOf_facts i hi).1
  have hrone : pairMeetings m i (rivalOf i) = 1 := by
    rcases (rivalOf_facts i hi).2 with hmem | hmem
    · exact (sat_rival h hmem).1
    · rw [pairMeetings_comm]
      exact (sat_rival h hmem).1
  exact ⟨hdivsum, hoppsum, hcross, hsupp, hrmem, hrone⟩

/-- Witness for C10 at the concrete solved schedule and team 0 (Thor). -/
theorem opponent_breakdown_witness :
    (∑ j ∈ divOppF 0, pairMeetings mSol 0 j) = 6 ∧
    pairMeetings mSol 0 (rivalOf 0) = 1 :=
  ⟨(opponent_breakdown mSol mSol_satisfies 0 (by decide)).1,
   (opponent_breakdown mSol mSol_satisfies 0 (by decide)).2.2.2.2.2⟩

/-- C1: Domain Model construction (modelled from the spec, §4.1) fails
with a `ConfigurationError` on any input containing a same-division
rivalry pair, and no model value is observable; if the division sizes
are otherwise fine, the error names the rivalry invariant. -/
theorem domain_model_rejects_same_division_rivalry (inp : LeagueInput)
    (hbad : ∃ r ∈ inp.rivalries, inputDivOf inp r.1 = inputDivOf inp r.2) :
    (∃ e, mkDomainModel inp = Except.error e) ∧
    (∀ dm, mkDomainModel inp ≠ Except.ok dm) ∧
    ((inp.teamsByDiv.all (fun p => p.2.length == inp.divSize)) = true →
      ∃ a b, mkDomainModel inp =
        Except.error (ConfigurationError.rivalrySameDivision a b)) := by
  obtain ⟨r, hr, hdiv⟩ := hbad
  have hfind : ∀ hnone : inp.rivalries.find?
      (fun q => inputDivOf inp q.1 == inputDivOf inp q.2) = none, False := by
    intro hnone
    have := List.find?_eq_none.mp hnone r hr
    simp [hdiv] at this
  have key : ∃ e, mkDomainModel inp = Except.error e := by
    unfold mkDomainModel
    split
    · exact ⟨_, rfl⟩
    · split
      · exact ⟨_, rfl⟩
      · rename_i hnone
        exact absurd hnone (fun hn => hfind hn)
  obtain ⟨e, he⟩ := key
  refine ⟨⟨e, he⟩, fun dm hok => by rw [he] at hok; exact Except.noConfusion hok, ?_⟩
  intro hall
  have hsz : inp.teamsByDiv.find? (fun p => p.2.length != inp.divSize) = none := by
    refine List.find?_eq_none.mpr (fun p hp => ?_)
    have := List.all_eq_true.mp hall p hp
    simp at this
    simp [this]
  unfold mkDomainModel
  rw [hsz]
  cases hrv : inp.rivalries.find?
      (fun q => inputDivOf inp q.1 == inputDivOf inp q.2) with
  | none => exact absurd hrv (fun hn => hfind hn)
  | some q => exact ⟨q.1, q.2, rfl⟩

/-- Witness for C1: the source's own league tables with the
same-division rivalry pair Thor–Blake are rejected. -/
theorem domain_model_rejects_witness :
    (∃ r ∈ badInput.rivalries, inputDivOf badInput r.1 = inputDivOf badInput r.2) ∧
    (∀ dm, mkDomainModel badInput ≠ Except.ok dm) :=
  ⟨by decide,
   (domain_model_rejects_same_division_rivalry badInput (by decide)).2.1⟩

/-- C2 counterexample: the validation block of the source never raises.
On the schedule extracted from the empty assignment several families
fail, yet the block's outcome is the normal report, not an error. -/
theorem validator_reports_without_raising_cex :
    ((validationChecks (extractGames mNone)).any (fun c => !c.2)) = true ∧
    validationOutcome (extractGames mNone) =
      Except.ok (validationChecks (extractGames mNone)) := by
  constructor
  · decide
  · rfl

/-- C2 (amended): the validation block independently recomputes its
constraint families from the extracted schedule and always produces the
full per-family report, in order, never stopping early and never
raising an error. -/
theorem validator_reports_all_families (gs : List Game) :
    validationOutcome gs = Except.ok (validationChecks gs) ∧
    (validationChecks gs).map Prod.fst =
      ["total_home_away_balance", "divisional_home_away_balance",
       "rivalry_week", "divisional_matchup_balance",
       "division_game_separation", "consecutive_division_games",
       "division_games_last_8_weeks", "final_week_divisional",
       "consecutive_home_away", "non_division_once", "opponent_breakdown"] :=
  ⟨rfl, rfl⟩

end FantasyScheduler
